import Mathlib

set_option linter.unusedVariables false

/-!
Shallow embedding of the peak-fitting core of the RQpy repository
(`rqpy/core/_fitting.py` and `rqpy/core/_functions.py`).

Bin centers, bin counts and fit parameters are modelled over `ℚ` (for the
executable index arithmetic) and `ℝ` (for the transcendental model
functions `gaussian`, `gaussian_background` and the Poisson errors).
Histogram counts are nonnegative integers, so they are carried as `List ℕ`.
The external routines `scipy.optimize.curve_fit` and `rqpy.core._utils._bindata`
(the latter is not part of the sources at hand) are treated as oracles:
their outputs are parameters of the model functions.

Python exceptions are modelled by `PyErr`; fallible code returns
`Except PyErr _`.
-/

/-- The Python exceptions that the embedded code can raise. -/
inductive PyErr where
  | valueError (msg : String)
  | nameError (missing : String)
  | typeError (msg : String)
  | axisError (msg : String)
  | indexError (msg : String)
deriving DecidableEq, Repr

/-- True when an `Except` carries a result, false on an exception. -/
def exceptOk {ε α : Type} : Except ε α → Bool
  | .ok _ => true
  | .error _ => false

/-- True exactly when the computation raised a Python `ValueError`. -/
def raisedValueError {α : Type} : Except PyErr α → Bool
  | .error (.valueError _) => true
  | _ => false

/-- Python index normalization for slices: a negative index counts from the
end (clamped below at 0), a nonnegative index is clamped above at the
length. -/
def pyIdxNorm (len : ℕ) (i : ℤ) : ℕ :=
  if i < 0 then ((len : ℤ) + i).toNat else min i.toNat len

/-- Python extended slice `xs[i:j:k]` for a positive step `k`: the elements
at the normalized start index, stepping by `k`, strictly below the
normalized stop index. -/
def pySlice {α : Type} (xs : List α) (i j : ℤ) (k : ℕ) : List α :=
  let lo := pyIdxNorm xs.length i
  let hi := pyIdxNorm xs.length j
  ((List.range xs.length).filter
      (fun t => decide (lo ≤ t ∧ t < hi ∧ (t - lo) % k = 0))).filterMap
    (fun t => xs.get? t)

/-- `np.max` on a rational array (junk value 0 on the empty array, where
NumPy raises instead; theorems assume nonempty input). -/
def npMaxQ : List ℚ → ℚ
  | [] => 0
  | [a] => a
  | a :: b :: t => max a (npMaxQ (b :: t))

/-- `np.argmax` on a rational array: index of the first occurrence of the
maximum. -/
def npArgmaxQ : List ℚ → ℕ
  | [] => 0
  | [_] => 0
  | a :: b :: t => if a < npMaxQ (b :: t) then npArgmaxQ (b :: t) + 1 else 0

/-- `np.min` on a rational array (junk value 0 on the empty array). -/
def npMinQ : List ℚ → ℚ
  | [] => 0
  | [a] => a
  | a :: b :: t => min a (npMinQ (b :: t))

/-- `np.argmin` on a rational array: index of the first occurrence of the
minimum. -/
def npArgminQ : List ℚ → ℕ
  | [] => 0
  | [_] => 0
  | a :: b :: t => if npMinQ (b :: t) < a then npArgminQ (b :: t) + 1 else 0

/-- `(np.abs(x - c)).argmin()`: index of the bin center nearest to `c`
(first one on ties). -/
def argminAbs (x : List ℚ) (c : ℚ) : ℕ :=
  npArgminQ (x.map (fun t => |t - c|))

/-- `np.mean` of a list of counts, as a rational. -/
def npMean (l : List ℕ) : ℚ :=
  ((l.sum : ℚ)) / (l.length : ℚ)

/-- A NumPy value as it appears in `fit_multi_gauss`: either a 1-d array or
a scalar (`np.float64`). -/
inductive NpVal where
  | arr (xs : List ℚ)
  | scalar (q : ℚ)
deriving DecidableEq, Repr

/-- Insert index `i` into an already argsorted index list, comparing the
values of `xs` (stable: on ties the earlier index stays first). -/
def argsortInsert (xs : List ℚ) (i : ℕ) : List ℕ → List ℕ
  | [] => [i]
  | j :: rest =>
    if xs.getD i 0 < xs.getD j 0 then i :: j :: rest else j :: argsortInsert xs i rest

/-- `np.argsort` of a rational 1-d array: a permutation of the indices that
sorts the values. -/
def argsortQ (xs : List ℚ) : List ℕ :=
  (List.range xs.length).foldr (argsortInsert xs) []

/-- `.argsort()` on a NumPy value. Sorting a scalar (0-d) input along axis
-1 is rejected by NumPy: the axis is out of bounds for dimension 0. -/
def npArgsortVal : NpVal → Except PyErr (List ℕ)
  | .arr xs => .ok (argsortQ xs)
  | .scalar _ => .error (.axisError "axis -1 is out of bounds for array of dimension 0")

/-- Fancy indexing `v[idx]` on a NumPy value; a scalar (`np.float64`) is
not subscriptable. -/
def npIndexVal : NpVal → List ℕ → Except PyErr NpVal
  | .arr xs, idx =>
    if idx.all (fun i => decide (i < xs.length)) then
      .ok (.arr (idx.map (fun i => xs.getD i 0)))
    else .error (.indexError "index out of bounds")
  | .scalar _, _ => .error (.typeError "numpy.float64 object is not subscriptable")

/-!
The tail of `fit_multi_gauss` (lines 88-96 of `_fitting.py`), operating on
the parameter vector returned by `curve_fit`:

    peaks = fitparams[1:-1:3]
    amps =  fitparams[0:-1:3]
    stds = peaks = fitparams[2:-1:3]
    background_fit = peaks = fitparams[-1]
    peakssort = peaks.argsort()
    peaks = peaks[peakssort]
    amps = amps[peakssort]
    stds = stds[peakssort]

The chained assignments on the third and fourth lines rebind the name
`peaks` (first to the stds slice, then to the scalar `fitparams[-1]`),
which the embedding reproduces by shadowing `let`s. NumPy rejects
`.argsort()` on the resulting 0-d scalar (axis -1 out of bounds); were an
index array returned anyway, the scalar subscript `peaks[peakssort]` on
the next line would raise a `TypeError` — both operations are modelled.
-/

/-- Value bound to the name `peaks` when line 93 (`peaks.argsort()`) of
`_fitting.py` runs: after the two chained assignments it is the scalar
`fitparams[-1]`, no longer the means slice. -/
def multiGaussPeaksAtSort (fitparams : List ℚ) : Except PyErr NpVal :=
  match fitparams.getLast? with
  | none => .error (.indexError "index -1 is out of bounds")
  | some b => .ok (.scalar b)

/-- Lines 88-96 of `_fitting.py`: extraction and sorting of
(peaks, amps, stds, background) from the fitted parameter vector. -/
def multiGaussExtract (fitparams : List ℚ) :
    Except PyErr (NpVal × NpVal × NpVal × NpVal) :=
  let peaks : NpVal := .arr (pySlice fitparams 1 (-1) 3)
  let amps : NpVal := .arr (pySlice fitparams 0 (-1) 3)
  let stds : NpVal := .arr (pySlice fitparams 2 (-1) 3)
  let peaks : NpVal := stds
  match fitparams.getLast? with
  | none => .error (.indexError "index -1 is out of bounds")
  | some b =>
    let background_fit : NpVal := .scalar b
    let peaks : NpVal := background_fit
    do
      let peakssort ← npArgsortVal peaks
      let peaks ← npIndexVal peaks peakssort
      let amps ← npIndexVal amps peakssort
      let stds ← npIndexVal stds peakssort
      return (peaks, amps, stds, background_fit)

/-!
The model functions from `rqpy/core/_functions.py`.
-/

/-- `gaussian` from `_functions.py`: `amp*np.exp(-(x - mean)**2/(2*sd**2))`
at a single point. -/
noncomputable def gaussian (x amp mean sd : ℝ) : ℝ :=
  amp * Real.exp (-(x - mean) ^ 2 / (2 * sd ^ 2))

/-- `gaussian_background` from `_functions.py`: `gaussian(x,amp,mean,sd) +
background` at a single point. -/
noncomputable def gaussian_background (x amp mean sd background : ℝ) : ℝ :=
  gaussian x amp mean sd + background

/-- `n_gauss` from `_functions.py`, vectorized over the point list `x`:
validates `n != int((len(params)-1)/3)` (Python `int()` truncates toward
zero, hence `Int.tdiv`), then stacks one row per Gaussian followed by the
constant background row `np.ones(x.shape)*params[-1]` (an `IndexError` on
an empty parameter list). -/
noncomputable def n_gauss (x : List ℝ) (params : List ℝ) (n : ℕ) :
    Except PyErr (List (List ℝ)) :=
  if (n : ℤ) ≠ Int.tdiv ((params.length : ℤ) - 1) 3 then
    .error (.valueError "Number of parameters must match the number of Gaussians")
  else
    match params.getLast? with
    | none => .error (.indexError "index -1 is out of bounds")
    | some b =>
      .ok (((List.range n).map (fun ii =>
          x.map (fun t =>
            gaussian t (params.getD (3 * ii) 0) (params.getD (3 * ii + 1) 0)
              (params.getD (3 * ii + 2) 0)))) ++ [x.map (fun _ => b)])

/-- `.sum(axis = 0)` on a stack of equal-length rows: elementwise sum. -/
def sumAxis0 : List (List ℝ) → List ℝ
  | [] => []
  | [r] => r
  | r :: s :: t => List.zipWith (· + ·) r (sumAxis0 (s :: t))

/-- `fit_n_gauss` from `fit_multi_gauss` (lines 75-76 of `_fitting.py`):
`n_gauss(x, params, ngauss).sum(axis = 0)`. -/
noncomputable def fit_n_gauss (x : List ℝ) (params : List ℝ) (ngauss : ℕ) :
    Except PyErr (List ℝ) :=
  (n_gauss x params ngauss).map sumAxis0

/-!
The shared Poisson error vector (lines 81-82 and 146-147 of
`_fitting.py`): `yerr = np.sqrt(y); yerr[yerr == 0] = 1`.
-/

open Classical in
/-- Per-bin fit weights from the histogram counts: elementwise square
root, then the masked in-place assignment flooring exact zeros at 1. -/
noncomputable def yerrCalc (y : List ℕ) : List ℝ :=
  ((y.map (fun c => Real.sqrt (Nat.cast c))).map (fun e => if e = 0 then 1 else e))

/-!
`fit_gauss` (lines 108-181 of `_fitting.py`). The binned data `(x, y)` is
the output of the external `_bindata` and is passed in directly; `xrange`
is taken as a given pair (the background branch dereferences it, so a
`None` `xrange` with a non-`None` `noiserange` cannot reach the fit).
-/

/-- Lines 148-165 of `_fitting.py`: the background estimate from the two
noise windows. The low-side clipping branch of the source assigns the
misspelled name `clow`, so when `noiserange[0][0] < xrange[0]` the later
read of `clowl` raises a `NameError`; the else-branch of the embedding
models that failure. -/
def fit_gauss_background (x : List ℚ) (y : List ℕ) (xr : ℚ × ℚ)
    (nr : (ℚ × ℚ) × (ℚ × ℚ)) : Except PyErr ℚ :=
  if nr.1.1 ≥ xr.1 then
    let clowl := nr.1.1
    let clowh := nr.1.2
    let chighl := nr.2.1
    let chighh := if nr.2.2 ≤ xr.2 then nr.2.2 else xr.2
    let indlowl := argminAbs x clowl
    let indlowh := argminAbs x clowh
    let indhighl := argminAbs x chighl
    let indhighh : ℤ := (argminAbs x chighh : ℤ) - 1
    .ok (npMean (pySlice y (indlowl : ℤ) (indlowh : ℤ) 1 ++
      pySlice y (indhighl : ℤ) indhighh 1))
  else
    .error (.nameError "clowl")

/-- Formalisation of the claimed background estimate, following the words
of the claim and the spec: the mean of the bin counts falling in the two
flanking windows, each window boundary clipped to the fit range and then
mapped to a bin index by nearest bin center, the counts taken at all
indices from the mapped lower boundary through the mapped upper boundary. -/
def backgroundSpec (x : List ℚ) (y : List ℕ) (xr : ℚ × ℚ)
    (nr : (ℚ × ℚ) × (ℚ × ℚ)) : ℚ :=
  let a := argminAbs x (max nr.1.1 xr.1)
  let b := argminAbs x nr.1.2
  let c := argminAbs x nr.2.1
  let d := argminAbs x (min nr.2.2 xr.2)
  npMean (((List.range y.length).filter
      (fun t => decide ((a ≤ t ∧ t ≤ b) ∨ (c ≤ t ∧ t ≤ d)))).map
    (fun t => y.getD t 0))

/-- Line 166 of `_fitting.py`: `y_noback = y - background`, the
background-subtracted bin counts. -/
def y_noback (y : List ℕ) (background : ℚ) : List ℚ :=
  y.map (fun c => (Nat.cast c : ℚ) - background)

/-- Lines 167-171 of `_fitting.py`: the initial guess
`(A0, mu0, sig0, background)` built from the background-subtracted
counts `y_noback`. -/
def fit_gauss_p0 (x : List ℚ) (y : List ℕ) (background : ℚ) :
    ℚ × ℚ × ℚ × ℚ :=
  let A0 := npMaxQ (y_noback y background)
  let mu0 := x.getD (npArgmaxQ (y_noback y background)) 0
  let sig0 := |mu0 - x.getD
    (npArgminQ ((y_noback y background).map
      (fun v => |v - npMaxQ (y_noback y background) / 2|))) 0|
  (A0, mu0, sig0, background)

/-- The argument bundle handed to `scipy.optimize.curve_fit` at line 173
of `_fitting.py` (the model function there is `gaussian_background`). -/
structure CurveFitCall where
  xdata : List ℚ
  ydata : List ℚ
  p0 : ℚ × ℚ × ℚ × ℚ
  sigma : List ℝ

/-- The `fit_gauss` pipeline after binning, up to the `curve_fit`
invocation: Poisson errors, optional background estimate, initial guess,
and the data arrays passed to the optimizer. -/
noncomputable def fit_gauss_call (x : List ℚ) (y : List ℕ) (xr : ℚ × ℚ)
    (nr : Option ((ℚ × ℚ) × (ℚ × ℚ))) : Except PyErr CurveFitCall :=
  let yerr := yerrCalc y
  match nr with
  | some nrv => do
    let background ← fit_gauss_background x y xr nrv
    return { xdata := x, ydata := y.map (fun c => (Nat.cast c : ℚ)),
             p0 := fit_gauss_p0 x y background, sigma := yerr }
  | none =>
    return { xdata := x, ydata := y.map (fun c => (Nat.cast c : ℚ)),
             p0 := fit_gauss_p0 x y 0, sigma := yerr }

/-!
State-threading versions of the two fitting entry points, for the frame
claims. The mutable Python locals that are ever written through NumPy
in-place operations are held in a store; `arr` is the sample array of
the caller. `_bindata` lives in `rqpy/core/_utils.py`, which is not among the
sources at hand; per the spec it derives the binned histogram
deterministically from the sample array, so it is modelled as an
arbitrary pure function parameter. `curve_fit` is external to the
repository and is likewise an oracle: its result vector is a parameter.
-/

/-- The mutable store of a fit call: the sample array of the caller plus the
one local array the source mutates in place (`yerr[yerr == 0] = 1`). -/
structure PyStore where
  arr : List ℚ
  yerr : List ℝ

/-- `fit_gauss` as a store transformer (lines 145-181 of `_fitting.py`):
bins the sample array, builds the Poisson errors (mutating `yerr` in
place), and produces the `curve_fit` argument bundle. -/
noncomputable def fit_gauss_store
    (bindata : List ℚ → Option (ℚ × ℚ) → List ℚ × List ℕ)
    (xr : ℚ × ℚ) (nr : Option ((ℚ × ℚ) × (ℚ × ℚ))) (s : PyStore) :
    Except PyErr CurveFitCall × PyStore :=
  let xy := bindata s.arr (some xr)
  let s1 : PyStore := { s with yerr := xy.2.map (fun c => Real.sqrt (Nat.cast c)) }
  let s2 : PyStore := { s1 with yerr := s1.yerr.map (fun e => if e = 0 then 1 else e) }
  (fit_gauss_call xy.1 xy.2 xr nr, s2)

/-- `fit_multi_gauss` as a store transformer (lines 72-105 of
`_fitting.py`): the parameter-count validation, then binning, Poisson
errors (in-place mutation of `yerr`), the external fit (oracle result
`curveFitResult`), and the peak extraction tail. -/
noncomputable def fit_multi_gauss_store
    (bindata : List ℚ → Option (ℚ × ℚ) → List ℚ × List ℕ)
    (guess : List ℚ) (ngauss : ℕ) (xr : Option (ℚ × ℚ))
    (curveFitResult : List ℚ) (s : PyStore) :
    Except PyErr (NpVal × NpVal × NpVal × NpVal) × PyStore :=
  if (ngauss : ℚ) ≠ ((guess.length : ℚ) - 1) / 3 then
    (.error (.valueError
      "Number of parameters in guess must match the number of Gaussians being fit (ngauss)"), s)
  else
    let xy := bindata s.arr xr
    let s1 : PyStore := { s with yerr := xy.2.map (fun c => Real.sqrt (Nat.cast c)) }
    let s2 : PyStore := { s1 with yerr := s1.yerr.map (fun e => if e = 0 then 1 else e) }
    (multiGaussExtract curveFitResult, s2)

/-!
Helper lemmas about the NumPy reductions.
-/

theorem le_npMaxQ (xs : List ℚ) (v : ℚ) (hv : v ∈ xs) : v ≤ npMaxQ xs := by
  induction xs with
  | nil => cases hv
  | cons a t ih =>
    cases t with
    | nil =>
      rw [List.mem_singleton] at hv
      subst hv
      exact le_of_eq rfl
    | cons b u =>
      rcases List.mem_cons.mp hv with rfl | h
      · exact le_max_left _ _
      · exact le_trans (ih h) (le_max_right _ _)

theorem npMaxQ_mem (xs : List ℚ) (h : xs ≠ []) : npMaxQ xs ∈ xs := by
  induction xs with
  | nil => exact absurd rfl h
  | cons a t ih =>
    cases t with
    | nil => exact List.mem_singleton.mpr rfl
    | cons b u =>
      have he : npMaxQ (a :: b :: u) = max a (npMaxQ (b :: u)) := rfl
      rcases max_cases a (npMaxQ (b :: u)) with ⟨h1, _⟩ | ⟨h1, _⟩
      · rw [he, h1]; exact List.mem_cons_self _ _
      · rw [he, h1]; exact List.mem_cons_of_mem _ (ih (by simp))

theorem npArgmaxQ_lt (xs : List ℚ) (h : xs ≠ []) : npArgmaxQ xs < xs.length := by
  induction xs with
  | nil => exact absurd rfl h
  | cons a t ih =>
    cases t with
    | nil => exact Nat.zero_lt_one
    | cons b u =>
      show (if a < npMaxQ (b :: u) then npArgmaxQ (b :: u) + 1 else 0) < (b :: u).length + 1
      split
      · have := ih (by simp)
        omega
      · omega

theorem npArgmaxQ_getD (xs : List ℚ) (h : xs ≠ []) :
    xs.getD (npArgmaxQ xs) 0 = npMaxQ xs := by
  induction xs with
  | nil => exact absurd rfl h
  | cons a t ih =>
    cases t with
    | nil => rfl
    | cons b u =>
      show (a :: b :: u).getD
          (if a < npMaxQ (b :: u) then npArgmaxQ (b :: u) + 1 else 0) 0 =
        max a (npMaxQ (b :: u))
      split
      · rename_i h1
        rw [List.getD_cons_succ, ih (by simp), max_eq_right (le_of_lt h1)]
      · rename_i h1
        rw [List.getD_cons_zero, max_eq_left (not_lt.mp h1)]

theorem npMinQ_le (xs : List ℚ) (v : ℚ) (hv : v ∈ xs) : npMinQ xs ≤ v := by
  induction xs with
  | nil => cases hv
  | cons a t ih =>
    cases t with
    | nil =>
      rw [List.mem_singleton] at hv
      subst hv
      exact le_of_eq rfl
    | cons b u =>
      rcases List.mem_cons.mp hv with rfl | h
      · exact min_le_left _ _
      · exact le_trans (min_le_right _ _) (ih h)

theorem npArgminQ_lt (xs : List ℚ) (h : xs ≠ []) : npArgminQ xs < xs.length := by
  induction xs with
  | nil => exact absurd rfl h
  | cons a t ih =>
    cases t with
    | nil => exact Nat.zero_lt_one
    | cons b u =>
      show (if npMinQ (b :: u) < a then npArgminQ (b :: u) + 1 else 0) < (b :: u).length + 1
      split
      · have := ih (by simp)
        omega
      · omega

theorem npArgminQ_getD (xs : List ℚ) (h : xs ≠ []) :
    xs.getD (npArgminQ xs) 0 = npMinQ xs := by
  induction xs with
  | nil => exact absurd rfl h
  | cons a t ih =>
    cases t with
    | nil => rfl
    | cons b u =>
      show (a :: b :: u).getD
          (if npMinQ (b :: u) < a then npArgminQ (b :: u) + 1 else 0) 0 =
        min a (npMinQ (b :: u))
      split
      · rename_i h1
        rw [List.getD_cons_succ, ih (by simp), min_eq_right (le_of_lt h1)]
      · rename_i h1
        rw [List.getD_cons_zero, min_eq_left (not_lt.mp h1)]

theorem argminAbs_lt (x : List ℚ) (c : ℚ) (h : x ≠ []) : argminAbs x c < x.length := by
  have hm : (x.map (fun t => |t - c|)) ≠ [] := by
    simpa using h
  have := npArgminQ_lt (x.map (fun t => |t - c|)) hm
  simpa [argminAbs] using this

theorem argminAbs_nearest (x : List ℚ) (c : ℚ) (h : x ≠ []) :
    ∀ t, t < x.length →
      |x.getD (argminAbs x c) 0 - c| ≤ |x.getD t 0 - c| := by
  intro t ht
  have hm : (x.map (fun t => |t - c|)) ≠ [] := by simpa using h
  have hlt : argminAbs x c < x.length := argminAbs_lt x c h
  have h1 : (x.map (fun t => |t - c|)).getD (argminAbs x c) 0 =
      |x.getD (argminAbs x c) 0 - c| := by
    rw [List.getD_eq_getElem _ _ (by simpa using hlt),
      List.getD_eq_getElem _ _ hlt]
    simp
  have h2 : (x.map (fun t => |t - c|)).getD t 0 = |x.getD t 0 - c| := by
    rw [List.getD_eq_getElem _ _ (by simpa using ht),
      List.getD_eq_getElem _ _ ht]
    simp
  have h3 : (x.map (fun t => |t - c|)).getD t 0 ∈ (x.map (fun t => |t - c|)) := by
    rw [List.getD_eq_getElem _ _ (by simpa using ht)]
    exact List.getElem_mem _
  have := npMinQ_le _ _ h3
  rw [← h1, ← h2]
  rw [argminAbs, npArgminQ_getD _ hm]
  exact this

theorem filterMapGet (xs : List ℕ) (l : List ℕ) (h : ∀ t ∈ l, t < xs.length) :
    l.filterMap (fun t => xs.get? t) = l.map (fun t => xs.getD t 0) := by
  induction l with
  | nil => rfl
  | cons a t ih =>
    have ha : a < xs.length := h a (List.mem_cons_self _ _)
    have hsome : xs.get? a = some (xs.getD a 0) := by
      rw [List.get?_eq_getElem?, List.getElem?_eq_getElem ha, List.getD_eq_getElem _ _ ha]
    simp only [List.filterMap_cons, hsome, List.map_cons]
    rw [ih (fun b hb => h b (List.mem_cons_of_mem _ hb))]

theorem pyIdxNorm_coe (len i : ℕ) (h : i ≤ len) : pyIdxNorm len (i : ℤ) = i := by
  unfold pyIdxNorm
  rw [if_neg (by omega), Int.toNat_natCast]
  exact min_eq_left h

theorem pySlice_nat (xs : List ℕ) (i j : ℕ) (hi : i ≤ xs.length) (hj : j ≤ xs.length) :
    pySlice xs (i : ℤ) (j : ℤ) 1 =
      ((List.range xs.length).filter (fun t => decide (i ≤ t ∧ t < j))).map
        (fun t => xs.getD t 0) := by
  simp only [pySlice, pyIdxNorm_coe _ _ hi, pyIdxNorm_coe _ _ hj]
  have hcong : ((List.range xs.length).filter
        (fun t => decide (i ≤ t ∧ t < j ∧ (t - i) % 1 = 0))) =
      ((List.range xs.length).filter (fun t => decide (i ≤ t ∧ t < j))) := by
    apply List.filter_congr
    intro t ht
    simp [Nat.mod_one]
  rw [hcong]
  apply filterMapGet
  intro t ht
  exact List.mem_range.mp (List.mem_filter.mp ht).1

/-- The extraction tail of `fit_multi_gauss` can fail, but never with a
`ValueError`: its failures are the scalar argsort (or, on an empty
parameter vector, the `fitparams[-1]` lookup). -/
theorem multiGaussExtract_no_valueError (fp : List ℚ) :
    raisedValueError (multiGaussExtract fp) = false := by
  cases h : fp.getLast? with
  | none => simp [multiGaussExtract, h, raisedValueError]
  | some b =>
    simp [multiGaussExtract, h, npArgsortVal, raisedValueError, Except.instMonad,
      Except.bind, Except.map]

/-!
The claims.
-/

/-- C1: the spec says `fit_multi_gauss` returns the fitted peak locations
(the mean parameters) sorted in increasing order, with amps and stds
reordered alongside — and so does the docstring of the function itself.
The code cannot do this: the chained assignments at lines 90-91 rebind
`peaks` to the stds slice and then to the scalar `fitparams[-1]`, so at
the sorting step `peaks` is a NumPy scalar and the call fails instead of
returning. Evaluated here on the two-Gaussian parameter vector
`[2, 5, 1, 3, 8, 4, 7]`: the extraction raises, the value bound to
`peaks` at the sort is the scalar `7` (the background), and the mean
slice the docstring promises would have been `[5, 8]`. -/
theorem claim_C1_peaks_overwritten :
    multiGaussExtract [2, 5, 1, 3, 8, 4, 7] =
      Except.error (PyErr.axisError "axis -1 is out of bounds for array of dimension 0") ∧
    multiGaussPeaksAtSort [2, 5, 1, 3, 8, 4, 7] = Except.ok (NpVal.scalar 7) ∧
    pySlice ([2, 5, 1, 3, 8, 4, 7] : List ℚ) 1 (-1) 3 = [5, 8] := by
  refine ⟨?_, ?_, ?_⟩ <;> rfl

/-- C2: `fit_multi_gauss` raises a `ValueError` exactly when the guess
length is in conflict with `ngauss` (`len(guess) ≠ 3*ngauss + 1`), before
any binning or fitting, and no other input ever produces a `ValueError`
from the function itself — the parameter-count check is its only explicit
validation. -/
theorem claim_C2_validation_iff
    (bindata : List ℚ → Option (ℚ × ℚ) → List ℚ × List ℕ)
    (guess : List ℚ) (ngauss : ℕ) (xr : Option (ℚ × ℚ)) (cfr : List ℚ)
    (s : PyStore) :
    raisedValueError (fit_multi_gauss_store bindata guess ngauss xr cfr s).1 =
        true ↔
      guess.length ≠ 3 * ngauss + 1 := by
  by_cases hc : (ngauss : ℚ) ≠ ((guess.length : ℚ) - 1) / 3
  · simp only [fit_multi_gauss_store, if_pos hc]
    constructor
    · intro _ hL
      apply hc
      rw [hL]
      push_cast
      ring
    · intro _
      rfl
  · push_neg at hc
    have hL : guess.length = 3 * ngauss + 1 := by
      have h3 : ((guess.length : ℚ)) = 3 * ngauss + 1 := by
        field_simp at hc
        linarith
      exact_mod_cast h3
    simp only [fit_multi_gauss_store, if_neg (not_not_intro hc)]
    rw [multiGaussExtract_no_valueError]
    simp [hL]

/-- C3 counterexample: the claim says `n_gauss` raises unless
`len(params) = 3*n + 1`; but with six parameters and `n = 1` the check
`n != int((len(params)-1)/3)` compares `1` with `int(5/3) = 1` and
passes, so no error is raised although `6 ≠ 3*1 + 1`. -/
theorem claim_C3_counterexample :
    exceptOk (n_gauss ([] : List ℝ) [1, 2, 3, 4, 5, 6] 1) = true ∧
      ([1, 2, 3, 4, 5, 6] : List ℝ).length ≠ 3 * 1 + 1 := by
  exact ⟨rfl, by decide⟩

/-- C3 amended: for a nonempty parameter list, `n_gauss` raises a
`ValueError` iff `len(params)` lies outside `[3n+1, 3n+3]` — the
truncating `int((len(params)-1)/3)` accepts up to two surplus parameters
beyond the exact count `3n+1`. -/
theorem claim_C3_amended (x : List ℝ) (params : List ℝ) (n : ℕ)
    (hp : 1 ≤ params.length) :
    raisedValueError (n_gauss x params n) = true ↔
      ¬(3 * n + 1 ≤ params.length ∧ params.length ≤ 3 * n + 3) := by
  obtain ⟨m, hm⟩ := Nat.exists_eq_add_of_le hp
  have htd : Int.tdiv ((params.length : ℤ) - 1) 3 = ((m / 3 : ℕ) : ℤ) := by
    have h1 : ((params.length : ℤ) - 1) = ((m : ℕ) : ℤ) := by
      rw [hm]
      push_cast
      ring
    rw [h1]
    rfl
  by_cases hc : (n : ℤ) ≠ Int.tdiv ((params.length : ℤ) - 1) 3
  · have hval : raisedValueError (n_gauss x params n) = true := by
      simp only [n_gauss]
      rw [if_pos hc]
      rfl
    rw [hval]
    have hne : n ≠ m / 3 := by
      intro he
      apply hc
      rw [htd, he]
    constructor
    · intro _
      omega
    · intro _
      rfl
  · push_neg at hc
    have hne : n = m / 3 := by
      rw [htd] at hc
      exact_mod_cast hc
    have hnil : params ≠ [] := by
      intro he
      rw [he] at hp
      simp at hp
    obtain ⟨b, hb⟩ : ∃ b, params.getLast? = some b := by
      cases hgl : params.getLast? with
      | none => exact absurd (List.getLast?_eq_none_iff.mp hgl) hnil
      | some b => exact ⟨b, rfl⟩
    have hfa : raisedValueError (n_gauss x params n) = false := by
      simp only [n_gauss]
      rw [if_neg (not_not_intro hc), hb]
      rfl
    rw [hfa]
    constructor
    · intro hft
      exact absurd hft Bool.false_ne_true
    · intro hneg
      exact absurd ⟨by omega, by omega⟩ hneg

/-- Witness for the amended C3: a four-parameter single-Gaussian call sits
inside the accepted range, and the validation indeed does not fire. -/
theorem claim_C3_amended_witness :
    raisedValueError (n_gauss ([] : List ℝ) [1, 2, 3, 4] 1) = true ↔
      ¬(3 * 1 + 1 ≤ ([1, 2, 3, 4] : List ℝ).length ∧
        ([1, 2, 3, 4] : List ℝ).length ≤ 3 * 1 + 3) :=
  claim_C3_amended [] [1, 2, 3, 4] 1 (by decide)

/-- C5: the claim says an out-of-range noise window boundary is clipped to
the fit range and the background computation is well-defined for every
such input. The high-side boundary is indeed clipped (second conjunct),
but the low-side clipping branch of the source assigns the misspelled
name `clow`, so any call with `noiserange[0][0] < xrange[0]` raises a
`NameError` on the undefined `clowl` (first conjunct) — the code
contradicts the clipping the spec describes. -/
theorem claim_C5_low_clip_nameError :
    fit_gauss_background [0, 1, 2] [1, 2, 3] (0, 2) ((-1, 0), (1, 2)) =
      Except.error (PyErr.nameError "clowl") ∧
    fit_gauss_background [0, 1, 2] [1, 2, 3] (0, 2) ((0, 1), (1, 5)) =
      Except.ok 1 := by
  refine ⟨rfl, ?_⟩
  norm_num [fit_gauss_background, argminAbs, npArgminQ, npMinQ, pySlice, pyIdxNorm,
    npMean, List.range_succ, List.filterMap_cons, List.filterMap_nil,
    List.getElem?_cons_zero, List.getElem?_cons_succ]

/-- C4 counterexample: the claim says the background equals the mean of
the bin counts in the two flanking windows with boundaries mapped to bin
indices by nearest bin center. On bin centers `0..9` with counts
`[4,2,6,0,0,0,0,3,5,100]`, windows `(0,2)` and `(7,9)` and fit range
`(0,9)`, the windows map to index ranges `0..2` and `7..9`, whose counts
average to `20`; the code instead averages `y[0:2] ++ y[7:8]` (the upper
index of each slice is excluded, and the upper boundary index of the
after-peak window is additionally decremented by one), giving `3`. -/
theorem claim_C4_counterexample :
    fit_gauss_background [0, 1, 2, 3, 4, 5, 6, 7, 8, 9]
        [4, 2, 6, 0, 0, 0, 0, 3, 5, 100] (0, 9) ((0, 2), (7, 9)) =
      Except.ok 3 ∧
    backgroundSpec [0, 1, 2, 3, 4, 5, 6, 7, 8, 9]
        [4, 2, 6, 0, 0, 0, 0, 3, 5, 100] (0, 9) ((0, 2), (7, 9)) = 20 ∧
    (3 : ℚ) ≠ 20 := by
  refine ⟨?_, ?_, by norm_num⟩
  · norm_num [fit_gauss_background, argminAbs, npArgminQ, npMinQ, pySlice, pyIdxNorm,
      npMean, List.range_succ, List.filterMap_cons, List.filterMap_nil,
      List.getElem?_cons_zero, List.getElem?_cons_succ]
  · norm_num [backgroundSpec, argminAbs, npArgminQ, npMinQ, npMean, List.range_succ,
      List.filter_cons, List.filter_nil, List.getD_cons_zero, List.getD_cons_succ]

/-- C4 amended: on the non-failing path (`noiserange[0][0] ≥ xrange[0]`;
otherwise the call dies with the `NameError` of C5), the background
equals the mean of the counts at indices `indlowl ≤ t < indlowh` together
with those at `indhighl ≤ t` with `t + 1 < indhighh`, where the four
indices are the nearest-bin-center images of `noiserange[0][0]`,
`noiserange[0][1]`, `noiserange[1][0]` and `min(noiserange[1][1],
xrange[1])`: the upper index of each window is excluded, and the upper index
of the after-peak window is additionally decremented by one before the
(exclusive) slice. -/
theorem claim_C4_amended (x : List ℚ) (y : List ℕ) (xr : ℚ × ℚ)
    (nr : (ℚ × ℚ) × (ℚ × ℚ)) (hclip : xr.1 ≤ nr.1.1) (hx : x ≠ [])
    (hlen : x.length = y.length)
    (hpos : 1 ≤ argminAbs x (min nr.2.2 xr.2)) :
    fit_gauss_background x y xr nr = Except.ok (npMean
      ((((List.range y.length).filter
          (fun t => decide (argminAbs x nr.1.1 ≤ t ∧ t < argminAbs x nr.1.2))).map
        (fun t => y.getD t 0)) ++
      (((List.range y.length).filter
          (fun t => decide (argminAbs x nr.2.1 ≤ t ∧
            t + 1 < argminAbs x (min nr.2.2 xr.2)))).map
        (fun t => y.getD t 0)))) := by
  have hmin : (if nr.2.2 ≤ xr.2 then nr.2.2 else xr.2) = min nr.2.2 xr.2 :=
    (min_def _ _).symm
  have hb1 : argminAbs x nr.1.1 ≤ y.length :=
    le_of_lt (hlen ▸ argminAbs_lt x _ hx)
  have hb2 : argminAbs x nr.1.2 ≤ y.length :=
    le_of_lt (hlen ▸ argminAbs_lt x _ hx)
  have hb3 : argminAbs x nr.2.1 ≤ y.length :=
    le_of_lt (hlen ▸ argminAbs_lt x _ hx)
  have hb4 : argminAbs x (min nr.2.2 xr.2) - 1 ≤ y.length := by
    have := hlen ▸ argminAbs_lt x (min nr.2.2 xr.2) hx
    omega
  have hcast : ((argminAbs x (min nr.2.2 xr.2) : ℤ) - 1) =
      ((argminAbs x (min nr.2.2 xr.2) - 1 : ℕ) : ℤ) := by
    omega
  simp only [fit_gauss_background]
  rw [if_pos hclip, hmin, hcast, pySlice_nat y _ _ hb1 hb2, pySlice_nat y _ _ hb3 hb4]
  have hcong : ((List.range y.length).filter
        (fun t => decide (argminAbs x nr.2.1 ≤ t ∧
          t < argminAbs x (min nr.2.2 xr.2) - 1))) =
      ((List.range y.length).filter
        (fun t => decide (argminAbs x nr.2.1 ≤ t ∧
          t + 1 < argminAbs x (min nr.2.2 xr.2)))) := by
    apply List.filter_congr
    intro t ht
    apply decide_eq_decide.mpr
    omega
  rw [hcong]

/-- Witness for the amended C4 on concrete data: bin centers `[0,1,2]`,
counts `[5,6,7]`, fit range `(0,2)`, noise windows `(0,1)` and `(1,2)`. -/
theorem claim_C4_amended_witness :
    fit_gauss_background [0, 1, 2] [5, 6, 7] (0, 2) ((0, 1), (1, 2)) =
      Except.ok (npMean
      ((((List.range ([5, 6, 7] : List ℕ).length).filter
          (fun t => decide (argminAbs [0, 1, 2] 0 ≤ t ∧ t < argminAbs [0, 1, 2] 1))).map
        (fun t => ([5, 6, 7] : List ℕ).getD t 0)) ++
      (((List.range ([5, 6, 7] : List ℕ).length).filter
          (fun t => decide (argminAbs [0, 1, 2] 1 ≤ t ∧
            t + 1 < argminAbs [0, 1, 2] (min 2 2)))).map
        (fun t => ([5, 6, 7] : List ℕ).getD t 0)))) :=
  claim_C4_amended [0, 1, 2] [5, 6, 7] (0, 2) ((0, 1), (1, 2))
    (by norm_num) (by simp) (by simp)
    (by norm_num [argminAbs, npArgminQ, npMinQ])


theorem getD_map_q (l : List ℚ) (f : ℚ → ℚ) (t : ℕ) (h : t < l.length) :
    (l.map f).getD t 0 = f (l.getD t 0) := by
  rw [List.getD_eq_getElem _ _ (by simpa using h), List.getD_eq_getElem _ _ h,
    List.getElem_map]

theorem y_noback_length (y : List ℕ) (bg : ℚ) : (y_noback y bg).length = y.length :=
  List.length_map _ _

theorem y_noback_ne_nil (y : List ℕ) (bg : ℚ) (hy : y ≠ []) : y_noback y bg ≠ [] := by
  intro h
  apply hy
  have := congrArg List.length h
  rw [y_noback_length] at this
  exact List.length_eq_zero.mp this

/-- C6: the initial guess of `fit_gauss` is as the spec describes.
Writing `y_noback y bg` for the background-subtracted counts
`y - background`: the guessed amplitude bounds every subtracted count
from above and is attained at some index `i` whose bin center is the
guessed mean; the guessed standard deviation is the absolute distance
from the guessed mean to the bin center of an index `j` whose subtracted
count is nearest to half the maximum; and the guessed offset is the
estimated background. -/
theorem claim_C6_initial_guess (x : List ℚ) (y : List ℕ) (bg : ℚ)
    (hlen : x.length = y.length) (hy : y ≠ []) :
    (∀ v ∈ y_noback y bg, v ≤ (fit_gauss_p0 x y bg).1) ∧
    (∃ i, i < y.length ∧
      (y_noback y bg).getD i 0 = (fit_gauss_p0 x y bg).1 ∧
      (fit_gauss_p0 x y bg).2.1 = x.getD i 0) ∧
    (∃ j, j < y.length ∧
      (fit_gauss_p0 x y bg).2.2.1 = |(fit_gauss_p0 x y bg).2.1 - x.getD j 0| ∧
      ∀ t, t < y.length →
        |(y_noback y bg).getD j 0 - (fit_gauss_p0 x y bg).1 / 2| ≤
          |(y_noback y bg).getD t 0 - (fit_gauss_p0 x y bg).1 / 2|) ∧
    (fit_gauss_p0 x y bg).2.2.2 = bg := by
  have hne : y_noback y bg ≠ [] := y_noback_ne_nil y bg hy
  have hnlen : (y_noback y bg).length = y.length := y_noback_length y bg
  have hm_ne : ((y_noback y bg).map
      (fun v => |v - npMaxQ (y_noback y bg) / 2|)) ≠ [] := by
    intro h
    exact hne (List.map_eq_nil_iff.mp h)
  have hm_len : ((y_noback y bg).map
      (fun v => |v - npMaxQ (y_noback y bg) / 2|)).length = y.length := by
    rw [List.length_map, hnlen]
  have hp1 : (fit_gauss_p0 x y bg).1 = npMaxQ (y_noback y bg) := rfl
  have hp2 : (fit_gauss_p0 x y bg).2.1 = x.getD (npArgmaxQ (y_noback y bg)) 0 := rfl
  have hp3 : (fit_gauss_p0 x y bg).2.2.1 =
      |x.getD (npArgmaxQ (y_noback y bg)) 0 - x.getD
        (npArgminQ ((y_noback y bg).map
          (fun v => |v - npMaxQ (y_noback y bg) / 2|))) 0| := rfl
  have hp4 : (fit_gauss_p0 x y bg).2.2.2 = bg := rfl
  rw [hp1, hp2, hp3, hp4]
  refine ⟨?_, ?_, ?_, rfl⟩
  · intro v hv
    exact le_npMaxQ _ v hv
  · refine ⟨npArgmaxQ (y_noback y bg), ?_, ?_, rfl⟩
    · rw [← hnlen]
      exact npArgmaxQ_lt _ hne
    · exact npArgmaxQ_getD _ hne
  · refine ⟨npArgminQ ((y_noback y bg).map
      (fun v => |v - npMaxQ (y_noback y bg) / 2|)), ?_, rfl, ?_⟩
    · rw [← hm_len]
      exact npArgminQ_lt _ hm_ne
    · intro t ht
      have hjlt : npArgminQ ((y_noback y bg).map
          (fun v => |v - npMaxQ (y_noback y bg) / 2|)) < (y_noback y bg).length := by
        rw [hnlen, ← hm_len]
        exact npArgminQ_lt _ hm_ne
      have htlt : t < (y_noback y bg).length := by
        rw [hnlen]
        exact ht
      have h1 : ((y_noback y bg).map
          (fun v => |v - npMaxQ (y_noback y bg) / 2|)).getD
            (npArgminQ ((y_noback y bg).map
              (fun v => |v - npMaxQ (y_noback y bg) / 2|))) 0 =
          |(y_noback y bg).getD (npArgminQ ((y_noback y bg).map
            (fun v => |v - npMaxQ (y_noback y bg) / 2|))) 0 -
            npMaxQ (y_noback y bg) / 2| :=
        getD_map_q (y_noback y bg) (fun v => |v - npMaxQ (y_noback y bg) / 2|) _ hjlt
      have h2 : ((y_noback y bg).map
          (fun v => |v - npMaxQ (y_noback y bg) / 2|)).getD t 0 =
          |(y_noback y bg).getD t 0 - npMaxQ (y_noback y bg) / 2| :=
        getD_map_q (y_noback y bg) (fun v => |v - npMaxQ (y_noback y bg) / 2|) t htlt
      rw [← h1, ← h2, npArgminQ_getD _ hm_ne]
      apply npMinQ_le
      rw [List.getD_eq_getElem _ _ (by simpa using htlt)]
      exact List.getElem_mem _

/-- Witness for C6 on concrete data: bin centers `[1,2,3]`, counts
`[1,5,2]`, background estimate `0`. -/
theorem claim_C6_initial_guess_witness :
    (∀ v ∈ y_noback [1, 5, 2] 0, v ≤ (fit_gauss_p0 [1, 2, 3] [1, 5, 2] 0).1) ∧
    (∃ i, i < ([1, 5, 2] : List ℕ).length ∧
      (y_noback [1, 5, 2] 0).getD i 0 = (fit_gauss_p0 [1, 2, 3] [1, 5, 2] 0).1 ∧
      (fit_gauss_p0 [1, 2, 3] [1, 5, 2] 0).2.1 = ([1, 2, 3] : List ℚ).getD i 0) ∧
    (∃ j, j < ([1, 5, 2] : List ℕ).length ∧
      (fit_gauss_p0 [1, 2, 3] [1, 5, 2] 0).2.2.1 =
        |(fit_gauss_p0 [1, 2, 3] [1, 5, 2] 0).2.1 - ([1, 2, 3] : List ℚ).getD j 0| ∧
      ∀ t, t < ([1, 5, 2] : List ℕ).length →
        |(y_noback [1, 5, 2] 0).getD j 0 -
            (fit_gauss_p0 [1, 2, 3] [1, 5, 2] 0).1 / 2| ≤
          |(y_noback [1, 5, 2] 0).getD t 0 -
            (fit_gauss_p0 [1, 2, 3] [1, 5, 2] 0).1 / 2|) ∧
    (fit_gauss_p0 [1, 2, 3] [1, 5, 2] 0).2.2.2 = 0 :=
  claim_C6_initial_guess [1, 2, 3] [1, 5, 2] 0 (by decide) (by decide)

/-- C7: the per-bin weighting vector built by both `fit_gauss` and
`fit_multi_gauss` (via `yerrCalc`, the shared
`yerr = np.sqrt(y); yerr[yerr == 0] = 1` idiom) equals, bin by bin, the
square root of the count for nonempty bins and 1 for empty bins. -/
theorem claim_C7_poisson_errors (y : List ℕ) :
    yerrCalc y = y.map (fun c => if 0 < c then Real.sqrt (Nat.cast c) else 1) := by
  induction y with
  | nil => rfl
  | cons c t ih =>
    simp only [yerrCalc, List.map_cons] at ih ⊢
    rw [ih]
    congr 1
    rcases Nat.eq_zero_or_pos c with h | h
    · subst h
      simp
    · have hpos : (0 : ℝ) < Nat.cast c := by exact_mod_cast h
      have hne : Real.sqrt (Nat.cast c) ≠ 0 := ne_of_gt (Real.sqrt_pos.mpr hpos)
      simp [hne, h]

/-- C8: whenever `fit_gauss` reaches its `curve_fit` call, the `ydata`
array handed to the optimizer is the original binned counts `y`, not the
background-subtracted `y_noback` (which is used only for the initial
guess). -/
theorem claim_C8_fit_unsubtracted (x : List ℚ) (y : List ℕ) (xr : ℚ × ℚ)
    (nr : Option ((ℚ × ℚ) × (ℚ × ℚ))) (r : CurveFitCall)
    (h : fit_gauss_call x y xr nr = Except.ok r) :
    r.ydata = y.map (fun c => (Nat.cast c : ℚ)) := by
  cases nr with
  | none =>
    simp only [fit_gauss_call, pure, Except.pure] at h
    cases h
    rfl
  | some nrv =>
    simp only [fit_gauss_call] at h
    cases hbg : fit_gauss_background x y xr nrv with
    | error e =>
      rw [hbg] at h
      simp [Except.instMonad, Except.bind] at h
    | ok bg =>
      rw [hbg] at h
      simp only [Except.instMonad, Except.bind, pure, Except.pure] at h
      cases h
      rfl

/-- Witness for C8: a one-bin call with no noise range reaches the fit,
and its `ydata` is the binned count vector itself. -/
theorem claim_C8_fit_unsubtracted_witness :
    ({ xdata := [1], ydata := ([2] : List ℕ).map (fun c => (Nat.cast c : ℚ)),
       p0 := fit_gauss_p0 [1] [2] 0,
       sigma := yerrCalc [2] } : CurveFitCall).ydata =
      ([2] : List ℕ).map (fun c => (Nat.cast c : ℚ)) :=
  claim_C8_fit_unsubtracted [1] [2] (0, 1) none _ rfl

/-- C9: neither fitting entry point ever writes to the sample
array: threading the mutable store (which carries `arr` and the one
in-place-mutated local `yerr`) through `fit_gauss` and
`fit_multi_gauss`, the `arr` component of the final store equals the
initial one for every input. -/
theorem claim_C9_arr_immutable :
    (∀ (bindata : List ℚ → Option (ℚ × ℚ) → List ℚ × List ℕ) (xr : ℚ × ℚ)
        (nr : Option ((ℚ × ℚ) × (ℚ × ℚ))) (s : PyStore),
      ((fit_gauss_store bindata xr nr s).2).arr = s.arr) ∧
    (∀ (bindata : List ℚ → Option (ℚ × ℚ) → List ℚ × List ℕ) (guess : List ℚ)
        (ngauss : ℕ) (xr : Option (ℚ × ℚ)) (cfr : List ℚ) (s : PyStore),
      ((fit_multi_gauss_store bindata guess ngauss xr cfr s).2).arr = s.arr) := by
  constructor
  · intro bindata xr nr s
    rfl
  · intro bindata guess ngauss xr cfr s
    unfold fit_multi_gauss_store
    split
    · rfl
    · rfl

/-- C10: for one Gaussian, summing the rows of `n_gauss` (the model
minimized by `fit_multi_gauss`, via `fit_n_gauss`) gives exactly
`gaussian_background` (the model minimized by `fit_gauss`), pointwise on
any input array and for all parameters. -/
theorem claim_C10_single_gauss_refines (x : List ℝ) (amp mean sd bg : ℝ) :
    fit_n_gauss x [amp, mean, sd, bg] 1 =
      Except.ok (x.map (fun t => gaussian_background t amp mean sd bg)) := by
  have hcheck : ¬(((1 : ℕ) : ℤ) ≠
      Int.tdiv ((([amp, mean, sd, bg] : List ℝ).length : ℤ) - 1) 3) := by
    simp
  simp only [fit_n_gauss, n_gauss]
  rw [if_neg hcheck]
  have hlast : ([amp, mean, sd, bg] : List ℝ).getLast? = some bg := rfl
  rw [hlast]
  simp only [Except.map, List.range_succ, sumAxis0, List.zipWith_map,
    List.zipWith_same, gaussian_background, List.range_zero, List.map_nil,
    List.map_cons, List.nil_append, List.getD_cons_zero, List.getD_cons_succ,
    List.length_cons, List.length_nil, List.cons_append]
  norm_num
